import Mathlib

/-!
Verification of the `mmms` grid step sequencer (`src/lib.rs`) against its
natural-language specification.

The source is shallowly embedded: structs become Lean structures, methods
become pure functions, `&mut self` methods return the updated structure, and
any code path that can panic in Rust (failed `assert!`, out-of-bounds index,
`unwrap()` of `None`, integer `%` by zero) is modelled with `Option`, `none`
meaning a panic.  Rust `f32`/`f64` arithmetic is modelled exactly over `ℚ`;
`usize` becomes `ℕ` and `isize` becomes `ℤ`.  The external crates
(`musical_scales`, `bela`, `audio_clock`, the mpsc channel) are out of scope
of the repository and are modelled by parameters:  a `Scale` is an abstract
table of pitches, a `Pitch` is identified by its control voltage (the only
attribute the render path uses), the channel is an explicit FIFO list of
messages, and the clock is an input parameter of `render`.
-/

namespace Mmms

/-- Model of `musical_scales::Pitch` (external crate): the render path only
uses a pitch through `to_cv()`, so a pitch is identified by that value. -/
structure Pitch where
  cv : ℚ
deriving DecidableEq, Repr

/-- `Pitch::to_cv` (external crate): the control voltage of the pitch. -/
def Pitch.to_cv (p : Pitch) : ℚ := p.cv

/-- Model of `musical_scales::Scale` (external crate): only the members used
by `lib.rs` are kept, as abstract data. `idx_to_pitch` returns `none` out of
range, matching the crate's fallible lookup (`.unwrap()` at call sites is a
panic, modelled by `Option` propagation). -/
structure Scale where
  note_count : Nat
  octave_note_count : Nat
  idx_to_pitch : Nat → Option Pitch

/-- Model of `bela::BelaPort` (external crate): the variants `lib.rs`
matches on, plus `AnalogIn` standing for every other (wrong-kind) variant. -/
inductive BelaPort
  | AnalogOut (n : Nat)
  | AnalogIn (n : Nat)
  | Digital (n : Nat)
deriving DecidableEq, Repr

/-- `const MAX_STEPS: usize = 128` -/
def MAX_STEPS : Nat := 128

/-- `const INITIAL_STEPS: usize = 32` -/
def INITIAL_STEPS : Nat := 32

/-- `pub fn clamp<T: PartialOrd>(input, min, max)` from `lib.rs`,
instantiated at `isize` (`ℤ`), the only instantiation the claims touch. -/
def clamp (input min max : ℤ) : ℤ :=
  if input < min then min
  else if input > max then max
  else input

/-- `enum Message` from `lib.rs`.  The constructor carrying a `Scale` is
called `ScaleMsg` because a constructor literally named `Scale` would
shadow the `Scale` type inside the declaration. -/
inductive Message
  | Tick (x y : Nat)
  | ScaleMsg (s : Scale)
  | Resize (n : Nat)
  | Start
  | Stop
  | TempoChange (t : ℚ)

/-- `enum MMMSIntent` from `lib.rs`. -/
inductive MMMSIntent
  | Nothing
  | Tick
deriving DecidableEq, Repr

/-- `enum MMMSAction` from `lib.rs`. -/
inductive MMMSAction
  | Nothing
  | Tick (x y : Nat)
  | Move (dx dy : ℤ)
  | Resize (bars : Nat)
deriving DecidableEq, Repr

/-- `struct GridStateTracker` from `lib.rs`. -/
structure GridStateTracker where
  buttons : List MMMSIntent
  width : Nat
  height : Nat
deriving DecidableEq, Repr

namespace GridStateTracker

/-- `GridStateTracker::idx` -/
def idx (width x y : Nat) : Nat := y * width + x

/-- `GridStateTracker::new` -/
def new (width height : Nat) : GridStateTracker :=
  { width := width, height := height
    buttons := List.replicate (width * height) MMMSIntent.Nothing }

/-- `GridStateTracker::shift_down`: the intent recorded at cell (15,0). -/
def shift_down (t : GridStateTracker) : Bool :=
  t.buttons.getD (idx t.width 15 0) MMMSIntent.Nothing ≠ MMMSIntent.Nothing

/-- `GridStateTracker::down` -/
def down (t : GridStateTracker) (x y : Nat) : GridStateTracker :=
  if y = 0 then
    -- control row, rightmost part, does nothing for now, the last one is shift
    if x = 15 then
      { t with buttons := t.buttons.set (idx t.width x y) MMMSIntent.Tick }
    else
      { t with buttons := t.buttons.set (idx t.width x y) MMMSIntent.Nothing }
  else
    { t with buttons := t.buttons.set (idx t.width x y) MMMSIntent.Tick }

/-- `GridStateTracker::up`.  Note the source clears the cell's intent on the
first line of the method and only afterwards, in the musical-row branch,
reads the (now already cleared) intent back. -/
def up (t : GridStateTracker) (x y : Nat) : GridStateTracker × MMMSAction :=
  let t1 : GridStateTracker :=
    { t with buttons := t.buttons.set (idx t.width x y) MMMSIntent.Nothing }
  if y = 0 then
    if ¬ t1.shift_down then
      match x with
      | 8 => (t1, MMMSAction.Move (-16) 0)
      | 9 => (t1, MMMSAction.Move 16 0)
      | 10 => (t1, MMMSAction.Move 0 (-1))
      | 11 => (t1, MMMSAction.Move 0 1)
      | _ => (t1, MMMSAction.Nothing)
    else
      match x with
      | 8 => (t1, MMMSAction.Resize 1)
      | 9 => (t1, MMMSAction.Resize 2)
      | 10 => (t1, MMMSAction.Resize 4)
      | 11 => (t1, MMMSAction.Resize 8)
      | _ => (t1, MMMSAction.Nothing)
  else
    match t1.buttons.getD (idx t.width x y) MMMSIntent.Nothing with
    | MMMSIntent.Nothing =>
        -- !? pressed a key during startup
        (t1, MMMSAction.Nothing)
    | MMMSIntent.Tick =>
        ({ t1 with buttons := t1.buttons.set (idx t.width x y) MMMSIntent.Nothing },
         MMMSAction.Tick x (y - 1))

end GridStateTracker

/-- `SmallVec::resize(n, v)` (external crate): truncate to `n` elements or
extend with copies of `v` up to `n` elements. -/
def resizeList (l : List α) (n : Nat) (v : α) : List α :=
  if n ≤ l.length then l.take n else l ++ List.replicate (n - l.length) v

/-- The value `VirtualGrid::tick` writes into the addressed column, as a
function of the column's previous content and the logical row: clear when
the same (u8-truncated) row is already set, otherwise set the row. -/
def tickCell (cell : Option Nat) (y : Nat) : Option Nat :=
  if cell = some (y % 256) then none else some (y % 256)

/-- `struct VirtualGrid` from `lib.rs`.  `grid` is the per-column optional
note row; the row is stored as a Rust `u8`, modelled as a `ℕ` reduced
`% 256` at every write. -/
structure VirtualGrid where
  width : Nat
  height : Nat
  offset_x : Nat
  offset_y : Nat
  scale : Scale
  grid : List (Option Nat)

namespace VirtualGrid

/-- `VirtualGrid::new`, parameterized by the externally constructed
`Scale::new(B, Natural, MinorPentatonic)` value.  The `start_offset`
subtraction is `usize` arithmetic; theorems that rely on it carry the
no-underflow hypothesis `3 * octave_note_count + 7 ≤ note_count`. -/
def new (s : Scale) : VirtualGrid :=
  -- third octave
  let start_offset := s.note_count - s.octave_note_count * 3 - 7
  { width := INITIAL_STEPS
    height := s.note_count
    offset_x := 0
    offset_y := start_offset
    scale := s
    grid := List.replicate INITIAL_STEPS none }

/-- `VirtualGrid::steps_count` -/
def steps_count (g : VirtualGrid) : Nat := g.width

/-- `VirtualGrid::change_steps_count`.  The source asserts
`count % 16 == 0`; a failed assert is a panic, modelled as `none`.  The
clamp upper bound `(self.width - 16) as isize` is `usize` subtraction on
the new width; theorems quantify over `16 ≤ count` where it matters, and
under that hypothesis the `ℤ` subtraction used here agrees with it. -/
def change_steps_count (g : VirtualGrid) (count : Nat) : Option VirtualGrid :=
  if count % 16 = 0 then
    some { g with
            width := count
            offset_x := (clamp (g.offset_x : ℤ) 0 ((count : ℤ) - 16)).toNat
            grid := resizeList g.grid count none }
  else
    none

/-- `VirtualGrid::mouve` (pan).  Same `usize`-subtraction caveat as
`change_steps_count` for `width - 16` and `height - 7`. -/
def mouve (g : VirtualGrid) (x y : ℤ) : VirtualGrid :=
  { g with
      offset_x := (clamp ((g.offset_x : ℤ) + x) 0 ((g.width : ℤ) - 16)).toNat
      offset_y := (clamp ((g.offset_y : ℤ) + y) 0 ((g.height : ℤ) - 7)).toNat }

/-- `VirtualGrid::vaddress`: viewport to logical coordinates.  The two
`assert!` statements become the in-bounds guard; `none` is a panic. -/
def vaddress (g : VirtualGrid) (vx vy : Nat) : Option (Nat × Nat) :=
  let x := vx + g.offset_x
  let y := vy + g.offset_y
  if x < g.width ∧ y < g.height then some (x, y) else none

/-- `VirtualGrid::tick`.  `y as u8` is the `% 256` reduction; indexing
`self.grid[x]` out of bounds is a panic (`none`). -/
def tick (g : VirtualGrid) (vx vy : Nat) : Option VirtualGrid :=
  match g.vaddress vx vy with
  | none => none
  | some (x, y) =>
    match g.grid.get? x with
    | none => none
    | some cell =>
      match cell with
      | some v =>
        if v = y % 256 then
          some { g with grid := g.grid.set x none }
        else
          some { g with grid := g.grid.set x (some (y % 256)) }
      | none => some { g with grid := g.grid.set x (some (y % 256)) }

/-- `VirtualGrid::x_in_view` -/
def x_in_view (g : VirtualGrid) (x : Nat) : Bool :=
  g.offset_x ≤ x ∧ x < g.offset_x + 16

/-- The viewport invariant stated by the spec:
`0 ≤ offset_x ≤ width-16` and `0 ≤ offset_y ≤ height-7` (the lower bounds
are automatic over `ℕ`), together with the implicit size floor that makes
the `usize` subtractions meaningful. -/
def viewportInv (g : VirtualGrid) : Prop :=
  16 ≤ g.width ∧ 7 ≤ g.height ∧
  g.offset_x ≤ g.width - 16 ∧ g.offset_y ≤ g.height - 7

instance (g : VirtualGrid) : Decidable g.viewportInv := by
  unfold viewportInv; infer_instance

end VirtualGrid

/-- A single viewport mutation: `mouve` (pan) or `change_steps_count`
(resize), the two `VirtualGrid` methods reachable from `MMMS::input`. -/
inductive GridOp
  | pan (dx dy : ℤ)
  | resize (n : Nat)
deriving DecidableEq, Repr

/-- Apply one viewport mutation; `none` is a panic. -/
def applyOp (g : VirtualGrid) : GridOp → Option VirtualGrid
  | GridOp.pan dx dy => some (g.mouve dx dy)
  | GridOp.resize n => g.change_steps_count n

/-- Apply a sequence of viewport mutations left to right. -/
def applyOps (g : VirtualGrid) : List GridOp → Option VirtualGrid
  | [] => some g
  | op :: ops => (applyOp g op).bind fun g1 => applyOps g1 ops

/-- A resize request of the shape the control plane can emit: a positive
multiple of 16 (`bars * 16` with `bars ∈ {1,2,4,8}` in the source). -/
def goodResize : GridOp → Bool
  | GridOp.resize n => decide (n % 16 = 0) && decide (16 ≤ n)
  | GridOp.pan _ _ => true

/-- Rust `f32::fract` for the non-negative positions the render loop sees. -/
def fractQ (q : ℚ) : ℚ := q - (q.floor : ℚ)

/-- Rust `as usize` on a float: truncate toward zero and saturate at 0,
which for every input agrees with `Int.toNat` of the floor at non-negative
inputs and with 0 below. -/
def toUsize (q : ℚ) : Nat := q.floor.toNat

/-- `struct MMMSRenderer` from `lib.rs`.  The clock halves and the channel
receiver are external handles; the beat position and the pending message
queue are passed to `render` explicitly instead. -/
structure MMMSRenderer where
  tempo : ℚ
  steps : List (Option Pitch)
  scale : Scale
  trigger_port : BelaPort
  pitch_port : BelaPort
  prev_pitch : ℚ

namespace MMMSRenderer

/-- `MMMSRenderer::new`.  `s0` stands for the externally constructed
`Scale::new(B, Natural, MinorPentatonic)` value; `width`/`height` are
accepted and ignored exactly as in the source. -/
def new (width height : Nat) (trigger_port pitch_port : BelaPort) (s0 : Scale) :
    MMMSRenderer :=
  { tempo := 0
    steps := List.replicate INITIAL_STEPS none
    scale := s0
    trigger_port := trigger_port
    pitch_port := pitch_port
    prev_pitch := 0 }

/-- `MMMSRenderer::press`: unconditionally stores the resolved pitch in
slot `x`.  The `.unwrap()` of a failed pitch lookup and an out-of-bounds
slot index are panics (`none`); `note_count - 1 - y` is `usize`
arithmetic, meaningful for the in-range `y` the theorems quantify over. -/
def press (r : MMMSRenderer) (x y : Nat) : Option MMMSRenderer :=
  match r.scale.idx_to_pitch (r.scale.note_count - 1 - y) with
  | none => none
  | some p =>
    if x < r.steps.length then
      some { r with steps := r.steps.set x (some p) }
    else
      none

/-- `MMMSRenderer::set_tempo` -/
def set_tempo (r : MMMSRenderer) (new_tempo : ℚ) : MMMSRenderer :=
  { r with tempo := new_tempo }

/-- `MMMSRenderer::set_scale`: clears every step, then installs the scale. -/
def set_scale (r : MMMSRenderer) (s : Scale) : MMMSRenderer :=
  { r with steps := r.steps.map (fun _ => none), scale := s }

/-- `MMMSRenderer::resize` -/
def resize (r : MMMSRenderer) (new_size : Nat) : MMMSRenderer :=
  { r with steps := resizeList r.steps new_size none }

end MMMSRenderer

/-- The `match msg` arms at the top of `MMMSRenderer::render`. -/
def applyMessage (r : MMMSRenderer) : Message → Option MMMSRenderer
  | Message.Tick x y => r.press x y
  | Message.Start => some r
  | Message.Stop => some r
  | Message.Resize new_size => some (r.resize new_size)
  | Message.TempoChange t => some (r.set_tempo t)
  | Message.ScaleMsg s => some (r.set_scale s)

/-- The `try_recv` at the top of `MMMSRenderer::render`: a non-blocking
poll of the FIFO channel; an empty queue is `TryRecvError::Empty`, a no-op
(disconnection is likewise non-fatal in the source and never occurs in a
model that owns both channel ends). -/
def drainOne (r : MMMSRenderer) (q : List Message) :
    Option (MMMSRenderer × List Message) :=
  match q with
  | [] => some (r, [])
  | m :: rest => (applyMessage r m).map (fun r1 => (r1, rest))

/-- Folding `applyMessage` over a message list, for stating FIFO results. -/
def applyAll (r : MMMSRenderer) : List Message → Option MMMSRenderer
  | [] => some r
  | m :: ms => (applyMessage r m).bind fun r1 => applyAll r1 ms

/-- The one frame of the trigger loop body: emit 1 when the current step
holds a note and the fractional position is inside the gate window,
otherwise 0.  (`sixteenth as usize % self.steps.len()` /
`sixteenth.fract() < trigger_duration` with `trigger_duration = 0.01`.) -/
def triggerFrameVal (steps : List (Option Pitch)) (sx : ℚ) : ℚ :=
  if (steps.getD (toUsize sx % steps.length) none).isSome = true ∧
      fractQ sx < 1 / 100 then 1 else 0

/-- The per-frame trigger loop: `sixteenth` starts at `beat * 4` and is
advanced by the output domain's period once per frame. -/
def triggerLoop (steps : List (Option Pitch)) (period : ℚ) : ℚ → Nat → List ℚ
  | _, 0 => []
  | sx, n + 1 => triggerFrameVal steps sx :: triggerLoop steps period (sx + period) n

/-- The trigger-output block of `MMMSRenderer::render` (`match
self.trigger_port`): analog-out and digital ports run the loop over their
own frame count and period; any other port kind is
`panic!("wrong ports.")`, and `% 0` on an empty step buffer with at least
one frame to render is likewise a panic. -/
def triggerSweep (r : MMMSRenderer) (beat analog_period digital_period : ℚ)
    (analog_frames digital_frames : Nat) : Option (List ℚ) :=
  match r.trigger_port with
  | BelaPort.AnalogOut _ =>
    if r.steps.length = 0 ∧ analog_frames ≠ 0 then none
    else some (triggerLoop r.steps analog_period (beat * 4) analog_frames)
  | BelaPort.Digital _ =>
    if r.steps.length = 0 ∧ digital_frames ≠ 0 then none
    else some (triggerLoop r.steps digital_period (beat * 4) digital_frames)
  | _ => none

/-- The per-frame pitch loop of `MMMSRenderer::render`: a step holding a
note emits `to_cv() / 10` and records it, an empty step re-emits the
recorded value.  Returns the emitted frames and the final `prev_pitch`;
`none` models the failed `assert!(value <= 1.0)`. -/
def pitchLoop (steps : List (Option Pitch)) (period : ℚ) :
    ℚ → ℚ → Nat → Option (List ℚ × ℚ)
  | _, prev, 0 => some ([], prev)
  | sx, prev, n + 1 =>
    match steps.getD (toUsize sx % steps.length) none with
    | some p =>
      if p.to_cv / 10 ≤ 1 then
        match pitchLoop steps period (sx + period) (p.to_cv / 10) n with
        | some lp => some (p.to_cv / 10 :: lp.1, lp.2)
        | none => none
      else none
    | none =>
      match pitchLoop steps period (sx + period) prev n with
      | some lp => some (prev :: lp.1, lp.2)
      | none => none

/-- The pitch-output block of `MMMSRenderer::render` (`if let
BelaPort::AnalogOut(channel) = self.pitch_port`): any other port kind is
`panic!("wtf.")`. -/
def pitchSweep (r : MMMSRenderer) (beat analog_period : ℚ) (analog_frames : Nat) :
    Option (List ℚ × ℚ) :=
  match r.pitch_port with
  | BelaPort.AnalogOut _ =>
    if r.steps.length = 0 ∧ analog_frames ≠ 0 then none
    else pitchLoop r.steps analog_period (beat * 4) r.prev_pitch analog_frames
  | _ => none

/-- The per-block quantities `MMMSRenderer::render` reads from the Bela
`Context` (external): frame counts and sample rates per output domain. -/
structure Context where
  audio_frames : Nat
  analog_frames : Nat
  digital_frames : Nat
  analog_sample_rate : ℚ
  digital_sample_rate : ℚ

/-- `MMMSRenderer::render`: drain at most one message, run the trigger
sweep, then the pitch sweep (which updates `prev_pitch`).  The shared
clock is external: the current beat is an input, and the final
`clock_updater.increment(frames)` mutates only external clock state.
Returns the new renderer, the remaining queue and both output buffers;
`none` is a panic on the audio path. -/
def MMMSRenderer.render (r : MMMSRenderer) (q : List Message) (beat : ℚ)
    (ctx : Context) : Option (MMMSRenderer × List Message × List ℚ × List ℚ) :=
  match drainOne r q with
  | none => none
  | some rq =>
    match triggerSweep rq.1 beat (1 / ctx.analog_sample_rate)
        (1 / ctx.digital_sample_rate) ctx.analog_frames ctx.digital_frames with
    | none => none
    | some trig =>
      match pitchSweep rq.1 beat (1 / ctx.analog_sample_rate) ctx.analog_frames with
      | none => none
      | some po => some ({ rq.1 with prev_pitch := po.2 }, rq.2, trig, po.1)

/-- `n` successive audio-callback invocations of `render`; call `k` reads
beat position `beats k` from the shared clock. -/
def renderCalls (r : MMMSRenderer) (q : List Message) (beats : Nat → ℚ)
    (ctx : Context) : Nat → Option (MMMSRenderer × List Message)
  | 0 => some (r, q)
  | n + 1 =>
    match renderCalls r q beats ctx n with
    | none => none
    | some rq =>
      match rq.1.render rq.2 (beats n) ctx with
      | none => none
      | some out => some (out.1, out.2.1)

/-- `struct MMMS` from `lib.rs` (control plane).  The channel sender is
modelled by explicitly threading the FIFO queue; the clock consumer is
external. -/
structure MMMS where
  tempo : ℚ
  width : Nat
  height : Nat
  state_tracker : GridStateTracker
  virtual_grid : VirtualGrid

/-- `MMMS::new`: validates only the pitch port (wrong kind is
`panic!("Cannot render CV on GPIO.")`, i.e. `none`), then builds the
control plane and the renderer.  `ports = (trigger_port, pitch_port)`;
`s0` stands for the externally constructed scale value. -/
def MMMS.new (ports : BelaPort × BelaPort) (width height : Nat) (tempo : ℚ)
    (s0 : Scale) : Option (MMMS × MMMSRenderer) :=
  match ports.2 with
  | BelaPort.AnalogOut _ =>
    some ({ tempo := 120
            width := width
            height := height
            state_tracker := GridStateTracker.new 16 8
            virtual_grid := VirtualGrid.new s0 },
          MMMSRenderer.new 16 8 ports.1 ports.2 s0)
  | _ => none

/-- The action-dispatch arm of `MMMS::input` (the `match` on
`state_tracker.up`): a `Tick` mutates the virtual grid then sends
`Message::Tick` with the logical address, a `Move` pans locally, a
`Resize` resizes locally and sends `Message::Resize(bars * 16)`.
`sender.send` appends to the FIFO queue `q`. -/
def MMMS.handleAction (m : MMMS) (a : MMMSAction) (q : List Message) :
    Option (MMMS × List Message) :=
  match a with
  | MMMSAction.Tick x y =>
    match m.virtual_grid.tick x y with
    | none => none
    | some g =>
      match g.vaddress x y with
      | none => none
      | some xy => some ({ m with virtual_grid := g }, q ++ [Message.Tick xy.1 xy.2])
  | MMMSAction.Move dx dy =>
    some ({ m with virtual_grid := m.virtual_grid.mouve dx dy }, q)
  | MMMSAction.Resize bars =>
    match m.virtual_grid.change_steps_count (bars * 16) with
    | none => none
    | some g => some ({ m with virtual_grid := g }, q ++ [Message.Resize (bars * 16)])
  | MMMSAction.Nothing => some (m, q)

/-- Port kind accepted for the pitch output by `MMMS::new`'s check. -/
def isAnalogOut : BelaPort → Bool
  | BelaPort.AnalogOut _ => true
  | _ => false

/-- Port kinds the trigger block of `render` accepts without panicking. -/
def isTriggerKind : BelaPort → Bool
  | BelaPort.AnalogOut _ => true
  | BelaPort.Digital _ => true
  | _ => false

/-- A step slot whose note (if any) satisfies the render-path voltage
bound `to_cv() / 10 <= 1.0` asserted by the pitch loop. -/
def cvOk : Option Pitch → Bool
  | some p => decide (p.to_cv ≤ 10)
  | none => true

/-- Renderer states on which a `render` call cannot panic: accepted port
kinds, a non-empty step buffer, and voltage-bounded notes. -/
def RenderReady (r : MMMSRenderer) : Prop :=
  isTriggerKind r.trigger_port = true ∧ isAnalogOut r.pitch_port = true ∧
  r.steps.length ≠ 0 ∧ r.steps.all cvOk = true

/-- A `Tick` message the renderer can apply without panicking against a
step buffer of length `L` and scale `sc`: in-bounds column, resolvable
pitch, voltage-bounded. -/
def goodTick (L : Nat) (sc : Scale) : Message → Bool
  | Message.Tick x y =>
    decide (x < L) &&
      (match sc.idx_to_pitch (sc.note_count - 1 - y) with
       | some p => decide (p.to_cv ≤ 10)
       | none => false)
  | _ => false

/-- Closed-form per-frame characterization of the pitch sample-and-hold
loop, used to state C6: frame `i` emits the current step's voltage when
the step holds a note, and otherwise repeats the previous frame's value
(frame 0 falling back to the incoming `prev_pitch`). -/
def pitchAt (steps : List (Option Pitch)) (period sx0 prev0 : ℚ) : Nat → ℚ
  | 0 =>
    match steps.getD (toUsize sx0 % steps.length) none with
    | some p => p.to_cv / 10
    | none => prev0
  | i + 1 =>
    match steps.getD (toUsize (sx0 + ((i : ℚ) + 1) * period) % steps.length) none with
    | some p => p.to_cv / 10
    | none => pitchAt steps period sx0 prev0 i

/-- Concrete scale used by witnesses and counterexamples: 25 notes, 5 per
octave, every in-range pitch at control voltage 1. -/
def cScale : Scale :=
  { note_count := 25
    octave_note_count := 5
    idx_to_pitch := fun n => if n < 25 then some { cv := 1 } else none }

/-- Concrete control plane used by witnesses and counterexamples. -/
def cMMMS : MMMS :=
  { tempo := 120
    width := 16
    height := 8
    state_tracker := GridStateTracker.new 16 8
    virtual_grid := VirtualGrid.new cScale }

/-- Concrete renderer with a note in step 0, for the trigger witness. -/
def cRenderer : MMMSRenderer :=
  { tempo := 0
    steps := (List.replicate 16 (none : Option Pitch)).set 0 (some { cv := 1 })
    scale := cScale
    trigger_port := BelaPort.AnalogOut 0
    pitch_port := BelaPort.AnalogOut 1
    prev_pitch := 0 }

/-- Concrete renderer with an empty step buffer of length 32. -/
def cRendererEmpty : MMMSRenderer :=
  MMMSRenderer.new 16 8 (BelaPort.Digital 0) (BelaPort.AnalogOut 0) cScale

/-- Concrete audio context with zero frames in both output domains. -/
def cContext : Context :=
  { audio_frames := 0
    analog_frames := 0
    digital_frames := 0
    analog_sample_rate := 44100
    digital_sample_rate := 44100 }

/-!  Theorems.  -/

theorem some_bind (a : α) (f : α → Option β) : (some a).bind f = f a := rfl

theorem some_map (a : α) (f : α → β) : (some a).map f = some (f a) := rfl

theorem clamp_le_max (x mn mx : ℤ) (h : mn ≤ mx) : clamp x mn mx ≤ mx := by
  unfold clamp
  split
  · exact h
  · split <;> omega

theorem resizeList_length (l : List α) (n : Nat) (v : α) :
    (resizeList l n v).length = n := by
  unfold resizeList
  split
  · simp only [List.length_take]
    omega
  · simp only [List.length_append, List.length_replicate]
    omega

theorem resizeList_get?_lt (l : List α) (n j : Nat) (v : α)
    (hj : j < l.length) (hjn : j < n) : (resizeList l n v).get? j = l.get? j := by
  unfold resizeList
  split
  · exact List.get?_take hjn
  · exact List.get?_append hj

theorem resizeList_get?_new (l : List α) (n j : Nat) (v : α)
    (hj : l.length ≤ j) (hjn : j < n) : (resizeList l n v).get? j = some v := by
  unfold resizeList
  split
  · omega
  · rw [List.get?_append_right hj]
    simp only [List.get?_eq_getElem?, List.getElem?_replicate]
    rw [if_pos (by omega)]

theorem mouve_viewportInv (g : VirtualGrid) (dx dy : ℤ) (h : g.viewportInv) :
    (g.mouve dx dy).viewportInv := by
  obtain ⟨h16, h7, _, _⟩ := h
  have hx := clamp_le_max ((g.offset_x : ℤ) + dx) 0 ((g.width : ℤ) - 16) (by omega)
  have hy := clamp_le_max ((g.offset_y : ℤ) + dy) 0 ((g.height : ℤ) - 7) (by omega)
  refine ⟨h16, h7, ?_, ?_⟩ <;>
    simp only [VirtualGrid.mouve, VirtualGrid.viewportInv] <;> omega

theorem change_steps_count_eq (g : VirtualGrid) (n : Nat) (hmod : n % 16 = 0) :
    g.change_steps_count n =
      some { g with
              width := n
              offset_x := (clamp (g.offset_x : ℤ) 0 ((n : ℤ) - 16)).toNat
              grid := resizeList g.grid n none } := by
  unfold VirtualGrid.change_steps_count
  rw [if_pos hmod]

theorem change_steps_count_viewportInv (g : VirtualGrid) (n : Nat)
    (hmod : n % 16 = 0) (h16 : 16 ≤ n) (h : g.viewportInv) :
    ∃ g1, g.change_steps_count n = some g1 ∧ g1.viewportInv := by
  obtain ⟨_, h7, _, hy⟩ := h
  refine ⟨_, change_steps_count_eq g n hmod, h16, h7, ?_, hy⟩
  show (clamp (g.offset_x : ℤ) 0 ((n : ℤ) - 16)).toNat ≤ n - 16
  have hx := clamp_le_max (g.offset_x : ℤ) 0 ((n : ℤ) - 16) (by omega)
  omega

/-- C7: for every sequence of pan and resize mutations (resizes being the
positive multiples of 16 the control plane can emit), starting from any
state satisfying the viewport invariant, no mutation panics and the
invariant `0 ≤ offset_x ≤ width-16 ∧ 0 ≤ offset_y ≤ height-7` holds after
each mutation (every prefix of a sequence is itself a sequence, so this
statement covers every intermediate state). -/
theorem C7_offsets_clamped (g : VirtualGrid) (ops : List GridOp)
    (hg : g.viewportInv) (hops : ops.all goodResize = true) :
    ∃ g1, applyOps g ops = some g1 ∧ g1.viewportInv := by
  induction ops generalizing g with
  | nil => exact ⟨g, rfl, hg⟩
  | cons op ops ih =>
    rw [List.all_cons, Bool.and_eq_true] at hops
    obtain ⟨hop, hops⟩ := hops
    cases op with
    | pan dx dy =>
      obtain ⟨g1, hg1, hinv⟩ := ih (g.mouve dx dy) (mouve_viewportInv g dx dy hg) hops
      exact ⟨g1, hg1, hinv⟩
    | resize n =>
      simp only [goodResize, Bool.and_eq_true, decide_eq_true_eq] at hop
      obtain ⟨g2, hg2, hinv2⟩ := change_steps_count_viewportInv g n hop.1 hop.2 hg
      obtain ⟨g1, hg1, hinv⟩ := ih g2 hinv2 hops
      refine ⟨g1, ?_, hinv⟩
      simp only [applyOps, applyOp, hg2, Option.bind_some]
      exact hg1

/-- C7 witness: a pan of -1000 then +1000 at width 32, then a resize to
64, starting from the freshly constructed grid; every step succeeds and
ends inside the clamped bounds. -/
theorem C7_offsets_clamped_witness :
    ∃ g1, applyOps (VirtualGrid.new cScale)
        [GridOp.pan (-1000) 0, GridOp.pan 1000 0, GridOp.resize 64] = some g1 ∧
      g1.viewportInv :=
  C7_offsets_clamped _ _ (by decide) (by decide)

/-- C8: under `newWidth % 16 == 0` and the lower bound `16 ≤ newWidth`
that the claim's clamp range `[0, newWidth-16]` presupposes, resize does
not panic, sets the storage length to `newWidth`, preserves the content
of every column below the old and new widths, initializes grown columns
to empty, drops every column at or beyond `newWidth`, and re-clamps
`offset_x` into `[0, newWidth-16]` (the lower bound holding over `ℕ`). -/
theorem C8_resize_semantics (g : VirtualGrid) (n j : Nat)
    (hmod : n % 16 = 0) (h16 : 16 ≤ n) :
    ∃ g1, g.change_steps_count n = some g1 ∧
      g1.width = n ∧
      g1.grid.length = n ∧
      (j < g.grid.length → j < n → g1.grid.get? j = g.grid.get? j) ∧
      (g.grid.length ≤ j → j < n → g1.grid.get? j = some none) ∧
      (n ≤ j → g1.grid.get? j = none) ∧
      g1.offset_x ≤ n - 16 ∧
      g1.offset_y = g.offset_y := by
  refine ⟨_, change_steps_count_eq g n hmod, rfl, resizeList_length g.grid n none,
    fun h1 h2 => resizeList_get?_lt g.grid n j none h1 h2,
    fun h1 h2 => resizeList_get?_new g.grid n j none h1 h2,
    fun h1 => ?_, ?_, rfl⟩
  · show (resizeList g.grid n none).get? j = none
    rw [List.get?_eq_none, resizeList_length g.grid n none]
    exact h1
  · show (clamp (g.offset_x : ℤ) 0 ((n : ℤ) - 16)).toNat ≤ n - 16
    have hx := clamp_le_max (g.offset_x : ℤ) 0 ((n : ℤ) - 16) (by omega)
    omega

/-- C8 witness: resizing the fresh 32-wide grid down to 16 at column
index 20 (a dropped column). -/
theorem C8_resize_semantics_witness :
    ∃ g1, (VirtualGrid.new cScale).change_steps_count 16 = some g1 ∧
      g1.width = 16 ∧
      g1.grid.length = 16 ∧
      (20 < (VirtualGrid.new cScale).grid.length → 20 < 16 →
        g1.grid.get? 20 = (VirtualGrid.new cScale).grid.get? 20) ∧
      ((VirtualGrid.new cScale).grid.length ≤ 20 → 20 < 16 →
        g1.grid.get? 20 = some none) ∧
      (16 ≤ 20 → g1.grid.get? 20 = none) ∧
      g1.offset_x ≤ 16 - 16 ∧
      g1.offset_y = (VirtualGrid.new cScale).offset_y :=
  C8_resize_semantics (VirtualGrid.new cScale) 16 20 (by decide) (by decide)

theorem vaddress_eq (g : VirtualGrid) (vx vy : Nat)
    (hx : vx + g.offset_x < g.width) (hy : vy + g.offset_y < g.height) :
    g.vaddress vx vy = some (vx + g.offset_x, vy + g.offset_y) := by
  unfold VirtualGrid.vaddress
  exact if_pos ⟨hx, hy⟩

theorem tick_eq (g : VirtualGrid) (vx vy : Nat) (cell : Option Nat)
    (hx : vx + g.offset_x < g.width) (hy : vy + g.offset_y < g.height)
    (hcell : g.grid.get? (vx + g.offset_x) = some cell) :
    g.tick vx vy = some
      { g with grid := g.grid.set (vx + g.offset_x) (tickCell cell (vy + g.offset_y)) } := by
  unfold VirtualGrid.tick tickCell
  rw [vaddress_eq g vx vy hx hy]
  dsimp only
  rw [hcell]
  cases cell with
  | none => simp
  | some v =>
    by_cases hv : v = (vy + g.offset_y) % 256
    · subst hv
      simp
    · simp [hv]

/-- C4 (amended): for every grid state satisfying the viewport invariant
and every pair of in-viewport coordinates on column `c`: a tick at
`(c,r1)` followed by a tick at `(c,r2)` with `r1 ≠ r2` panics nowhere and
leaves column `c` holding exactly the note at (logical) row `r2`; and two
consecutive ticks at the same `(c,r)` return column `c` to empty provided
the column did not already hold a note at exactly that logical row (the
amendment: from such a state the first tick clears and the second re-sets,
so the column ends occupied — see the counterexample).  Each column is one
`Option`, so at most one note per column is structural. -/
theorem C4_tick_monophony (g : VirtualGrid) (c r1 r2 : Nat)
    (hinv : g.viewportInv) (hlen : g.grid.length = g.width)
    (hh : g.height ≤ 256) (hc : c < 16) (hr1 : r1 < 7) (hr2 : r2 < 7) :
    (r1 ≠ r2 →
      ((g.tick c r1).bind (fun g1 => g1.tick c r2)).map
          (fun g2 => g2.grid.get? (c + g.offset_x)) =
        some (some (some (r2 + g.offset_y)))) ∧
    (g.grid.get? (c + g.offset_x) ≠ some (some (r1 + g.offset_y)) →
      ((g.tick c r1).bind (fun g1 => g1.tick c r1)).map
          (fun g2 => g2.grid.get? (c + g.offset_x)) =
        some (some none)) := by
  obtain ⟨h16, h7, hox, hoy⟩ := hinv
  have hx : c + g.offset_x < g.width := by omega
  have hy1 : r1 + g.offset_y < g.height := by omega
  have hy2 : r2 + g.offset_y < g.height := by omega
  have hm1 : (r1 + g.offset_y) % 256 = r1 + g.offset_y := Nat.mod_eq_of_lt (by omega)
  have hm2 : (r2 + g.offset_y) % 256 = r2 + g.offset_y := Nat.mod_eq_of_lt (by omega)
  have hxlen : c + g.offset_x < g.grid.length := by omega
  have hlen2 : ∀ v : Option Nat,
      c + g.offset_x < (g.grid.set (c + g.offset_x) v).length := by
    intro v
    rw [List.length_set]
    exact hxlen
  rcases hcell : g.grid.get? (c + g.offset_x) with _ | cell
  · rw [List.get?_eq_none] at hcell
    omega
  constructor
  · intro hne
    simp only [tick_eq g c r1 cell hx hy1 hcell, some_bind]
    simp only [tick_eq
      { g with grid := g.grid.set (c + g.offset_x) (tickCell cell (r1 + g.offset_y)) }
      c r2 (tickCell cell (r1 + g.offset_y)) hx hy2
      (List.get?_set_eq_of_lt _ hxlen), some_map]
    rw [List.get?_set_eq_of_lt
      (tickCell (tickCell cell (r1 + g.offset_y)) (r2 + g.offset_y))
      (hlen2 (tickCell cell (r1 + g.offset_y)))]
    have hstep : tickCell (tickCell cell (r1 + g.offset_y)) (r2 + g.offset_y) =
        some (r2 + g.offset_y) := by
      unfold tickCell
      rw [hm1, hm2]
      rcases eq_or_ne cell (some (r1 + g.offset_y)) with hceq | hcne2
      · rw [if_pos hceq, if_neg (by simp)]
      · rw [if_neg hcne2,
          if_neg (by simp only [ne_eq, Option.some.injEq]; omega)]
    rw [hstep]
  · intro hcne
    have hcellne : cell ≠ some (r1 + g.offset_y) := fun hc2 =>
      hcne (congrArg some hc2)
    simp only [tick_eq g c r1 cell hx hy1 hcell, some_bind]
    simp only [tick_eq
      { g with grid := g.grid.set (c + g.offset_x) (tickCell cell (r1 + g.offset_y)) }
      c r1 (tickCell cell (r1 + g.offset_y)) hx hy1
      (List.get?_set_eq_of_lt _ hxlen), some_map]
    rw [List.get?_set_eq_of_lt
      (tickCell (tickCell cell (r1 + g.offset_y)) (r1 + g.offset_y))
      (hlen2 (tickCell cell (r1 + g.offset_y)))]
    have hstep : tickCell (tickCell cell (r1 + g.offset_y)) (r1 + g.offset_y) = none := by
      unfold tickCell
      rw [hm1]
      rw [if_neg hcellne, if_pos rfl]
    rw [hstep]

/-- C4 counterexample: the claim quantifies over every grid state, but
from the state reached by one tick at (0,0) on the fresh grid — column 0
holding the note at logical row 3, exactly the row (0,0) addresses — two
further consecutive ticks at the same (0,0) leave column 0 holding the
note at row 3 again (cleared then re-set), not empty as claimed. -/
theorem C4_tick_monophony_counterexample :
    (((VirtualGrid.new cScale).tick 0 0).bind (fun g1 =>
        (g1.tick 0 0).bind (fun g2 => g2.tick 0 0))).map
        (fun g3 => g3.grid.get? 0) = some (some (some 3)) := by
  rfl

/-- C4 witness: the amended claim instantiated on the fresh grid at
column 2, rows 1 and 3. -/
theorem C4_tick_monophony_witness :
    ((1 : Nat) ≠ 3 →
      (((VirtualGrid.new cScale).tick 2 1).bind (fun g1 => g1.tick 2 3)).map
          (fun g2 => g2.grid.get? (2 + (VirtualGrid.new cScale).offset_x)) =
        some (some (some (3 + (VirtualGrid.new cScale).offset_y)))) ∧
    ((VirtualGrid.new cScale).grid.get? (2 + (VirtualGrid.new cScale).offset_x) ≠
        some (some (1 + (VirtualGrid.new cScale).offset_y)) →
      (((VirtualGrid.new cScale).tick 2 1).bind (fun g1 => g1.tick 2 1)).map
          (fun g2 => g2.grid.get? (2 + (VirtualGrid.new cScale).offset_x)) =
        some (some none)) :=
  C4_tick_monophony (VirtualGrid.new cScale) 2 1 3 (by decide) (by decide)
    (by decide) (by decide) (by decide) (by decide)

/-- C10: draining a `Scale` message clears every slot of the step buffer
to "no note" and installs the new scale, erasing the render plane's whole
mirrored sequence, not just the scale field. -/
theorem C10_scale_change_clears_steps (r : MMMSRenderer) (s : Scale) :
    applyMessage r (Message.ScaleMsg s) =
      some { r with steps := List.replicate r.steps.length none, scale := s } := by
  unfold applyMessage MMMSRenderer.set_scale
  rw [List.map_const']

/-- C3 counterexample: a trigger port of the wrong kind (an analog input)
paired with a correct pitch port passes construction — no fatal error is
raised before the real-time path — and the very first render call then
panics (`panic!("wrong ports.")`) inside the audio callback. -/
theorem C3_counterexample :
    (MMMS.new (BelaPort.AnalogIn 0, BelaPort.AnalogOut 0) 16 8 120 cScale).isSome
        = true ∧
    ((MMMS.new (BelaPort.AnalogIn 0, BelaPort.AnalogOut 0) 16 8 120 cScale).bind
        (fun mr => mr.2.render [] 0 cContext)) = none := by
  exact ⟨rfl, rfl⟩

/-- C3 (amended): for every pair of trigger and pitch port
configurations, construction fails fatally exactly when the pitch port is
not an analog output — a wrong-kind trigger port is not rejected at
construction — and whenever the trigger port is of a wrong kind, the
composite construct-then-render path produces no output: either
construction already failed on the pitch port, or construction succeeded
and the render call panics in the trigger block. -/
theorem C3_port_validation (t p : BelaPort) (w h : Nat) (tempo beat ap dp : ℚ)
    (af df : Nat) (s : Scale) :
    (MMMS.new (t, p) w h tempo s).isSome = isAnalogOut p ∧
    (isTriggerKind t = false →
      ((MMMS.new (t, p) w h tempo s).bind
          (fun mr => triggerSweep mr.2 beat ap dp af df)) = none) := by
  constructor
  · cases p with
    | AnalogOut n => rfl
    | AnalogIn n => rfl
    | Digital n => rfl
  · intro ht
    cases p with
    | AnalogOut n =>
      cases t with
      | AnalogOut m => simp [isTriggerKind] at ht
      | Digital m => simp [isTriggerKind] at ht
      | AnalogIn m => rfl
    | AnalogIn n => rfl
    | Digital n => rfl

/-- C3 witness: a valid-kind trigger port paired with a wrong-kind
(digital) pitch port — construction must and does fail there — together
with an analog-input trigger port instance for the panic clause. -/
theorem C3_port_validation_witness :
    ((MMMS.new (BelaPort.AnalogOut 2, BelaPort.Digital 1) 16 8 120 cScale).isSome =
        isAnalogOut (BelaPort.Digital 1) ∧
      (isTriggerKind (BelaPort.AnalogOut 2) = false →
        ((MMMS.new (BelaPort.AnalogOut 2, BelaPort.Digital 1) 16 8 120 cScale).bind
            (fun mr => triggerSweep mr.2 0 1 1 4 4)) = none)) ∧
    ((MMMS.new (BelaPort.AnalogIn 3, BelaPort.AnalogOut 1) 16 8 120 cScale).isSome =
        isAnalogOut (BelaPort.AnalogOut 1) ∧
      (isTriggerKind (BelaPort.AnalogIn 3) = false →
        ((MMMS.new (BelaPort.AnalogIn 3, BelaPort.AnalogOut 1) 16 8 120 cScale).bind
            (fun mr => triggerSweep mr.2 0 1 1 4 4)) = none)) :=
  ⟨C3_port_validation (BelaPort.AnalogOut 2) (BelaPort.Digital 1) 16 8 120 0 1 1
      4 4 cScale,
   C3_port_validation (BelaPort.AnalogIn 3) (BelaPort.AnalogOut 1) 16 8 120 0 1 1
      4 4 cScale⟩

/-- C2 counterexample: from the fresh control plane, dispatching a Tick
at viewport cell (0,0) twice toggles the virtual grid's column 0 back to
empty, yet after the render plane drains both resulting messages its step
slot 0 holds a note: the render plane applies every Tick as a set, so the
claimed slot/column agreement fails for a clearing Tick. -/
theorem C2_counterexample :
    ((cMMMS.handleAction (MMMSAction.Tick 0 0) []).bind (fun s1 =>
      (s1.1.handleAction (MMMSAction.Tick 0 0) s1.2).bind (fun s2 =>
        (applyAll cRendererEmpty s2.2).map (fun r =>
          (s2.1.virtual_grid.grid.get? 0, r.steps.get? 0))))) =
      some (some none, some (some { cv := 1 })) := by
  rfl

/-- C2 (amended): a dispatched `Tick` sends `Message::Tick` carrying the
logical (column,row) address, and the render plane, on draining it,
unconditionally stores the pitch resolved from its scale into slot x.
For ticks that set or move a note the slot therefore mirrors the virtual
grid's column; for a tick that clears the column, the slot still ends up
holding that pitch — the renderer has no clear operation. -/
theorem C2_tick_message_mirrors (m : MMMS) (vx vy : Nat) (r : MMMSRenderer)
    (p : Pitch)
    (hinv : m.virtual_grid.viewportInv)
    (hlen : m.virtual_grid.grid.length = m.virtual_grid.width)
    (hvx : vx < 16) (hvy : vy < 7)
    (hx : vx + m.virtual_grid.offset_x < r.steps.length)
    (hp : r.scale.idx_to_pitch
        (r.scale.note_count - 1 - (vy + m.virtual_grid.offset_y)) = some p) :
    ((m.handleAction (MMMSAction.Tick vx vy) []).map (fun s => s.2)) =
      some [Message.Tick (vx + m.virtual_grid.offset_x)
            (vy + m.virtual_grid.offset_y)] ∧
    ((applyMessage r (Message.Tick (vx + m.virtual_grid.offset_x)
          (vy + m.virtual_grid.offset_y))).map
        (fun r1 => r1.steps.get? (vx + m.virtual_grid.offset_x))) =
      some (some (some p)) := by
  obtain ⟨h16, h7, hox, hoy⟩ := hinv
  have hxw : vx + m.virtual_grid.offset_x < m.virtual_grid.width := by omega
  have hyh : vy + m.virtual_grid.offset_y < m.virtual_grid.height := by omega
  have hxlen : vx + m.virtual_grid.offset_x < m.virtual_grid.grid.length := by omega
  rcases hcell : m.virtual_grid.grid.get? (vx + m.virtual_grid.offset_x)
    with _ | cell
  · rw [List.get?_eq_none] at hcell
    omega
  constructor
  · have ht := tick_eq m.virtual_grid vx vy cell hxw hyh hcell
    have hva := vaddress_eq { m.virtual_grid with grid := m.virtual_grid.grid.set (vx + m.virtual_grid.offset_x) (tickCell cell (vy + m.virtual_grid.offset_y)) } vx vy hxw hyh
    unfold MMMS.handleAction
    dsimp only
    rw [ht]
    dsimp only
    rw [hva]
    simp
  · unfold applyMessage MMMSRenderer.press
    dsimp only
    rw [hp]
    dsimp only
    rw [if_pos hx]
    rw [some_map]
    dsimp only
    rw [List.get?_set_eq_of_lt (some p) hx]

/-- C2 witness: the amended statement instantiated at viewport cell (1,2)
on the fresh control plane and the fresh (empty) renderer. -/
theorem C2_tick_message_mirrors_witness :
    ((cMMMS.handleAction (MMMSAction.Tick 1 2) []).map (fun s => s.2)) =
      some [Message.Tick (1 + cMMMS.virtual_grid.offset_x)
            (2 + cMMMS.virtual_grid.offset_y)] ∧
    ((applyMessage cRendererEmpty (Message.Tick (1 + cMMMS.virtual_grid.offset_x)
          (2 + cMMMS.virtual_grid.offset_y))).map
        (fun r1 => r1.steps.get? (1 + cMMMS.virtual_grid.offset_x))) =
      some (some (some { cv := 1 })) :=
  C2_tick_message_mirrors cMMMS 1 2 cRendererEmpty { cv := 1 } (by decide)
    (by decide) (by decide) (by decide) (by decide) rfl

theorem triggerLoop_get? (steps : List (Option Pitch)) (period : ℚ) :
    ∀ (n i : Nat) (sx : ℚ), (triggerLoop steps period sx n).get? i =
      if i < n then some (triggerFrameVal steps (sx + i * period)) else none := by
  intro n
  induction n with
  | zero =>
    intro i sx
    simp [triggerLoop]
  | succ n ih =>
    intro i sx
    cases i with
    | zero =>
      simp only [triggerLoop, List.get?_cons_zero, Nat.zero_lt_succ, if_pos]
      norm_num
    | succ i =>
      simp only [triggerLoop, List.get?_cons_succ]
      rw [ih i (sx + period)]
      have harith : sx + period + (i : ℚ) * period = sx + ((i + 1 : Nat) : ℚ) * period := by
        push_cast
        ring
      have hcond : (i < n) ↔ (i + 1 < n + 1) := by omega
      rw [harith]
      simp only [hcond]

/-- C5: for every frame of a rendered block, the trigger output is 1
exactly when the step at index `floor(position) mod step_buffer_length`
holds a note and the fractional part of the position is strictly below
the 0.01 gate threshold, and 0 otherwise — for both trigger port kinds,
where the position of frame `i` is `beat*4 + i*period` in that output
domain's period.  (Float arithmetic is modelled exactly over `ℚ`;
`toUsize` is the `as usize` floor.)  The spec's one-bar example is this
statement at a 16-step buffer with a note only at index 0. -/
theorem C5_trigger_gate (r : MMMSRenderer) (beat ap dp : ℚ) (af df i ch : Nat)
    (hL : r.steps.length ≠ 0) :
    (r.trigger_port = BelaPort.AnalogOut ch → i < af →
      (triggerSweep r beat ap dp af df).bind (fun l => l.get? i) =
        some (if (r.steps.getD (toUsize (beat * 4 + i * ap) % r.steps.length)
              none).isSome = true ∧ fractQ (beat * 4 + i * ap) < 1 / 100
          then 1 else 0)) ∧
    (r.trigger_port = BelaPort.Digital ch → i < df →
      (triggerSweep r beat ap dp af df).bind (fun l => l.get? i) =
        some (if (r.steps.getD (toUsize (beat * 4 + i * dp) % r.steps.length)
              none).isSome = true ∧ fractQ (beat * 4 + i * dp) < 1 / 100
          then 1 else 0)) := by
  constructor
  · intro hport hi
    unfold triggerSweep
    rw [hport]
    dsimp only
    rw [if_neg (by simp [hL])]
    rw [some_bind]
    rw [triggerLoop_get? r.steps ap af i (beat * 4)]
    rw [if_pos hi]
    rfl
  · intro hport hi
    unfold triggerSweep
    rw [hport]
    dsimp only
    rw [if_neg (by simp [hL])]
    rw [some_bind]
    rw [triggerLoop_get? r.steps dp df i (beat * 4)]
    rw [if_pos hi]
    rfl

/-- C5 witness: the analog-out trigger renderer with a 16-step buffer
holding a note only at index 0, queried at frame 0 of a 4-frame block. -/
theorem C5_trigger_gate_witness :
    (cRenderer.trigger_port = BelaPort.AnalogOut 0 → 0 < 4 →
      (triggerSweep cRenderer 0 1 1 4 4).bind (fun l => l.get? 0) =
        some (if (cRenderer.steps.getD (toUsize ((0 : ℚ) * 4 + (0 : Nat) * 1) %
              cRenderer.steps.length) none).isSome = true ∧
            fractQ ((0 : ℚ) * 4 + (0 : Nat) * 1) < 1 / 100
          then 1 else 0)) ∧
    (cRenderer.trigger_port = BelaPort.Digital 0 → 0 < 4 →
      (triggerSweep cRenderer 0 1 1 4 4).bind (fun l => l.get? 0) =
        some (if (cRenderer.steps.getD (toUsize ((0 : ℚ) * 4 + (0 : Nat) * 1) %
              cRenderer.steps.length) none).isSome = true ∧
            fractQ ((0 : ℚ) * 4 + (0 : Nat) * 1) < 1 / 100
          then 1 else 0)) :=
  C5_trigger_gate cRenderer 0 1 1 4 4 0 0 (by decide)

theorem get?_mem_of_getD (steps : List (Option Pitch)) (idx : Nat) (p : Pitch)
    (h : steps.getD idx none = some p) : some p ∈ steps := by
  have hd : steps.getD idx none = (steps.get? idx).getD none := rfl
  rw [hd] at h
  rcases hg : steps.get? idx with _ | cell
  · rw [hg] at h
    exact Option.noConfusion h
  · rw [hg] at h
    have : cell = some p := h
    subst this
    exact List.get?_mem hg

theorem pitchLoop_spec (steps : List (Option Pitch)) (period : ℚ)
    (hcv : steps.all cvOk = true) :
    ∀ (n : Nat) (sx prev : ℚ), ∃ lp : List ℚ × ℚ,
      pitchLoop steps period sx prev n = some lp ∧
      lp.1.length = n ∧
      (∀ i p, i < n →
        steps.getD (toUsize (sx + i * period) % steps.length) none = some p →
        lp.1.get? i = some (p.to_cv / 10)) ∧
      (∀ i, i < n →
        steps.getD (toUsize (sx + i * period) % steps.length) none = none →
        lp.1.get? i = if i = 0 then some prev else lp.1.get? (i - 1)) := by
  intro n
  induction n with
  | zero =>
    intro sx prev
    exact ⟨([], prev), rfl, rfl, fun i p hi => absurd hi (by omega),
      fun i hi => absurd hi (by omega)⟩
  | succ n ih =>
    intro sx prev
    have hpos0 : sx + ((0 : Nat) : ℚ) * period = sx := by norm_num
    rcases hstep : steps.getD (toUsize sx % steps.length) none with _ | p
    · obtain ⟨lp, hlp, hlen, hnote, hempty⟩ := ih (sx + period) prev
      refine ⟨(prev :: lp.1, lp.2), ?_, by simp [hlen], ?_, ?_⟩
      · unfold pitchLoop
        rw [hstep, hlp]
      · intro i p2 hi hgi
        cases i with
        | zero =>
          rw [hpos0] at hgi
          exact Option.noConfusion (hstep.symm.trans hgi)
        | succ i =>
          have harith : sx + period + (i : ℚ) * period =
              sx + ((i + 1 : Nat) : ℚ) * period := by
            push_cast
            ring
          simp only [List.get?_cons_succ]
          exact hnote i p2 (by omega) (by rw [harith]; exact hgi)
      · intro i hi hgi
        cases i with
        | zero => simp
        | succ i =>
          have harith : sx + period + (i : ℚ) * period =
              sx + ((i + 1 : Nat) : ℚ) * period := by
            push_cast
            ring
          have he := hempty i (by omega) (by rw [harith]; exact hgi)
          simp only [List.get?_cons_succ]
          rw [he]
          cases i with
          | zero => simp
          | succ k => simp
    · have hmem := get?_mem_of_getD steps _ p hstep
      have hcvp : p.to_cv ≤ 10 := by
        have hall := (List.all_eq_true.mp hcv) _ hmem
        simpa [cvOk] using hall
      have hv1 : p.to_cv / 10 ≤ 1 := by linarith
      obtain ⟨lp, hlp, hlen, hnote, hempty⟩ := ih (sx + period) (p.to_cv / 10)
      refine ⟨(p.to_cv / 10 :: lp.1, lp.2), ?_, by simp [hlen], ?_, ?_⟩
      · unfold pitchLoop
        rw [hstep]
        dsimp only
        rw [if_pos hv1, hlp]
      · intro i p2 hi hgi
        cases i with
        | zero =>
          rw [hpos0] at hgi
          have hpp : p = p2 := by
            have h2 := hstep.symm.trans hgi
            injection h2
          subst hpp
          simp
        | succ i =>
          have harith : sx + period + (i : ℚ) * period =
              sx + ((i + 1 : Nat) : ℚ) * period := by
            push_cast
            ring
          simp only [List.get?_cons_succ]
          exact hnote i p2 (by omega) (by rw [harith]; exact hgi)
      · intro i hi hgi
        cases i with
        | zero =>
          rw [hpos0] at hgi
          exact Option.noConfusion (hstep.symm.trans hgi)
        | succ i =>
          have harith : sx + period + (i : ℚ) * period =
              sx + ((i + 1 : Nat) : ℚ) * period := by
            push_cast
            ring
          have he := hempty i (by omega) (by rw [harith]; exact hgi)
          simp only [List.get?_cons_succ]
          rw [he]
          cases i with
          | zero => simp
          | succ k => simp

/-- C6: per-frame pitch output is sample-and-hold — when the current step
holds a note, the frame emits that note's control voltage (scaled by the
output mapping `to_cv()/10`) and records it; when the current step is
empty, frame 0 emits the stored `prev_pitch` and every later frame emits
exactly the previous frame's value, so the pitch output changes only on
frames whose step holds a note.  Positions as in C5; voltages bounded so
the render assert passes. -/
theorem C6_pitch_sample_and_hold (r : MMMSRenderer) (beat ap : ℚ)
    (af i j ch : Nat) (p : Pitch)
    (hport : r.pitch_port = BelaPort.AnalogOut ch)
    (hL : r.steps.length ≠ 0)
    (hcv : r.steps.all cvOk = true)
    (hi : i < af) :
    (r.steps.getD (toUsize (beat * 4 + i * ap) % r.steps.length) none = some p →
      (pitchSweep r beat ap af).bind (fun lp => lp.1.get? i) =
        some (p.to_cv / 10)) ∧
    (i = 0 → r.steps.getD (toUsize (beat * 4) % r.steps.length) none = none →
      (pitchSweep r beat ap af).bind (fun lp => lp.1.get? 0) =
        some r.prev_pitch) ∧
    (i = j + 1 →
      r.steps.getD (toUsize (beat * 4 + i * ap) % r.steps.length) none = none →
      (pitchSweep r beat ap af).bind (fun lp => lp.1.get? i) =
        (pitchSweep r beat ap af).bind (fun lp => lp.1.get? j)) := by
  obtain ⟨lp, hlp, hlen, hnote, hempty⟩ :=
    pitchLoop_spec r.steps ap hcv af (beat * 4) r.prev_pitch
  have hsweep : pitchSweep r beat ap af = some lp := by
    unfold pitchSweep
    rw [hport]
    dsimp only
    rw [if_neg (by simp [hL])]
    exact hlp
  refine ⟨?_, ?_, ?_⟩
  · intro hstep
    rw [hsweep, some_bind]
    exact hnote i p hi hstep
  · intro hi0 hstep
    subst hi0
    rw [hsweep, some_bind]
    have h0 : beat * 4 + ((0 : Nat) : ℚ) * ap = beat * 4 := by norm_num
    have he := hempty 0 hi (by rw [h0]; exact hstep)
    simpa using he
  · intro hij hstep
    subst hij
    rw [hsweep, some_bind, some_bind]
    have he := hempty (j + 1) hi hstep
    rw [he]
    simp

/-- C6 witness: the fresh renderer (analog-out pitch port, 32 empty
steps) at frame 1 of a 4-frame block with unit period. -/
theorem C6_pitch_sample_and_hold_witness :
    (cRendererEmpty.steps.getD (toUsize ((0 : ℚ) * 4 + (1 : Nat) * 1) %
          cRendererEmpty.steps.length) none = some { cv := 1 } →
      (pitchSweep cRendererEmpty 0 1 4).bind (fun lp => lp.1.get? 1) =
        some (Pitch.to_cv { cv := 1 } / 10)) ∧
    ((1 : Nat) = 0 →
      cRendererEmpty.steps.getD (toUsize ((0 : ℚ) * 4) %
          cRendererEmpty.steps.length) none = none →
      (pitchSweep cRendererEmpty 0 1 4).bind (fun lp => lp.1.get? 0) =
        some cRendererEmpty.prev_pitch) ∧
    ((1 : Nat) = 0 + 1 →
      cRendererEmpty.steps.getD (toUsize ((0 : ℚ) * 4 + (1 : Nat) * 1) %
          cRendererEmpty.steps.length) none = none →
      (pitchSweep cRendererEmpty 0 1 4).bind (fun lp => lp.1.get? 1) =
        (pitchSweep cRendererEmpty 0 1 4).bind (fun lp => lp.1.get? 0)) :=
  C6_pitch_sample_and_hold cRendererEmpty 0 1 4 1 0 0 { cv := 1 } rfl
    (by decide) (by decide) (by decide)

theorem all_set_of_all (l : List α) (p : α → Bool) (a : α) (n : Nat)
    (h : l.all p = true) (hp : p a = true) : (l.set n a).all p = true := by
  rw [List.all_eq_true] at h ⊢
  intro x hx
  rcases List.mem_or_eq_of_mem_set hx with h1 | h1
  · exact h x h1
  · subst h1
    exact hp

theorem drop_eq_cons_of_get? (l : List α) (n : Nat) (a : α)
    (h : l.get? n = some a) : l.drop n = a :: l.drop (n + 1) := by
  induction l generalizing n with
  | nil => simp at h
  | cons b bs ih =>
    cases n with
    | zero =>
      simp only [List.get?_cons_zero, Option.some.injEq] at h
      subst h
      rfl
    | succ n =>
      simp only [List.get?_cons_succ] at h
      simp only [List.drop_succ_cons]
      exact ih n h

theorem applyAll_append (r : MMMSRenderer) (xs ys : List Message) :
    applyAll r (xs ++ ys) = (applyAll r xs).bind fun r1 => applyAll r1 ys := by
  induction xs generalizing r with
  | nil => rfl
  | cons m ms ih =>
    show (applyMessage r m).bind (fun r1 => applyAll r1 (ms ++ ys)) =
      ((applyMessage r m).bind fun r1 => applyAll r1 ms).bind fun r1 => applyAll r1 ys
    cases applyMessage r m with
    | none => rfl
    | some r1 =>
      rw [some_bind, some_bind]
      exact ih r1

theorem goodTick_elim (L : Nat) (sc : Scale) (m : Message)
    (hm : goodTick L sc m = true) :
    ∃ x y p, m = Message.Tick x y ∧ x < L ∧
      sc.idx_to_pitch (sc.note_count - 1 - y) = some p ∧ p.to_cv ≤ 10 := by
  cases m with
  | Tick x y =>
    unfold goodTick at hm
    rw [Bool.and_eq_true, decide_eq_true_eq] at hm
    obtain ⟨hx, hmatch⟩ := hm
    rcases hp : sc.idx_to_pitch (sc.note_count - 1 - y) with _ | p
    · rw [hp] at hmatch
      exact Bool.noConfusion hmatch
    · simp only [hp] at hmatch
      rw [decide_eq_true_eq] at hmatch
      exact ⟨x, y, p, rfl, hx, hp, hmatch⟩
  | ScaleMsg s => exact Bool.noConfusion hm
  | Resize n => exact Bool.noConfusion hm
  | Start => exact Bool.noConfusion hm
  | Stop => exact Bool.noConfusion hm
  | TempoChange t => exact Bool.noConfusion hm

theorem applyMessage_tick_steps (r : MMMSRenderer) (x y : Nat) (p : Pitch)
    (hp : r.scale.idx_to_pitch (r.scale.note_count - 1 - y) = some p)
    (hx : x < r.steps.length) :
    applyMessage r (Message.Tick x y) =
      some { r with steps := r.steps.set x (some p) } := by
  unfold applyMessage MMMSRenderer.press
  dsimp only
  rw [hp]
  dsimp only
  rw [if_pos hx]

theorem triggerSweep_isSome (r : MMMSRenderer) (beat ap dp : ℚ) (af df : Nat)
    (ht : isTriggerKind r.trigger_port = true) (hL : r.steps.length ≠ 0) :
    ∃ l, triggerSweep r beat ap dp af df = some l := by
  unfold triggerSweep
  cases hport : r.trigger_port with
  | AnalogOut n =>
    dsimp only
    rw [if_neg (by simp [hL])]
    exact ⟨_, rfl⟩
  | Digital n =>
    dsimp only
    rw [if_neg (by simp [hL])]
    exact ⟨_, rfl⟩
  | AnalogIn n =>
    rw [hport] at ht
    simp [isTriggerKind] at ht

theorem pitchSweep_isSome (r : MMMSRenderer) (beat ap : ℚ) (af : Nat)
    (hpo : isAnalogOut r.pitch_port = true) (hL : r.steps.length ≠ 0)
    (hcv : r.steps.all cvOk = true) :
    ∃ lp, pitchSweep r beat ap af = some lp := by
  unfold pitchSweep
  cases hport : r.pitch_port with
  | AnalogOut n =>
    dsimp only
    rw [if_neg (by simp [hL])]
    obtain ⟨lp, hlp, _⟩ := pitchLoop_spec r.steps ap hcv af (beat * 4) r.prev_pitch
    exact ⟨lp, hlp⟩
  | AnalogIn n =>
    rw [hport] at hpo
    simp [isAnalogOut] at hpo
  | Digital n =>
    rw [hport] at hpo
    simp [isAnalogOut] at hpo

theorem render_step (r : MMMSRenderer) (msg : Message) (rest : List Message)
    (beat : ℚ) (ctx : Context) (r1 : MMMSRenderer)
    (happly : applyMessage r msg = some r1)
    (ht : isTriggerKind r1.trigger_port = true)
    (hpp : isAnalogOut r1.pitch_port = true)
    (hL : r1.steps.length ≠ 0)
    (hcv : r1.steps.all cvOk = true) :
    ∃ pf trig pout, r.render (msg :: rest) beat ctx =
      some ({ r1 with prev_pitch := pf }, rest, trig, pout) := by
  obtain ⟨trig, htrig⟩ := triggerSweep_isSome r1 beat (1 / ctx.analog_sample_rate)
    (1 / ctx.digital_sample_rate) ctx.analog_frames ctx.digital_frames ht hL
  obtain ⟨lp, hlp⟩ := pitchSweep_isSome r1 beat (1 / ctx.analog_sample_rate)
    ctx.analog_frames hpp hL hcv
  refine ⟨lp.2, trig, lp.1, ?_⟩
  unfold MMMSRenderer.render drainOne
  dsimp only
  rw [happly, some_map]
  dsimp only
  rw [htrig]
  dsimp only
  rw [hlp]

theorem renderCalls_spec (beats : Nat → ℚ) (ctx : Context) (r : MMMSRenderer)
    (q : List Message)
    (hready : RenderReady r)
    (hq : q.all (goodTick r.steps.length r.scale) = true) :
    ∀ n, n ≤ q.length →
      ∃ rn r1, applyAll r (q.take n) = some r1 ∧
        renderCalls r q beats ctx n = some (rn, q.drop n) ∧
        rn.steps = r1.steps ∧
        rn.scale = r.scale ∧ r1.scale = r.scale ∧
        rn.steps.length = r.steps.length ∧
        rn.trigger_port = r.trigger_port ∧ rn.pitch_port = r.pitch_port ∧
        rn.steps.all cvOk = true := by
  intro n
  induction n with
  | zero =>
    intro _
    exact ⟨r, r, rfl, rfl, rfl, rfl, rfl, rfl, rfl, rfl, hready.2.2.2⟩
  | succ n ih =>
    intro hn
    obtain ⟨rn, r1, hA, hR, hsteps, hscale, hscale1, hlen, htp, hpp2, hcv⟩ :=
      ih (by omega)
    rcases hget : q.get? n with _ | msg
    · rw [List.get?_eq_none] at hget
      omega
    have hgood : goodTick r.steps.length r.scale msg = true :=
      List.all_eq_true.mp hq _ (List.get?_mem hget)
    obtain ⟨x, y, p, hmsg, hx, hp, hcvp⟩ := goodTick_elim _ _ _ hgood
    subst hmsg
    have hpn : rn.scale.idx_to_pitch (rn.scale.note_count - 1 - y) = some p := by
      rw [hscale]
      exact hp
    have hxn : x < rn.steps.length := by
      rw [hlen]
      exact hx
    have happn := applyMessage_tick_steps rn x y p hpn hxn
    have hp1 : r1.scale.idx_to_pitch (r1.scale.note_count - 1 - y) = some p := by
      rw [hscale1]
      exact hp
    have hx1 : x < r1.steps.length := by
      rw [← hsteps, hlen]
      exact hx
    have happ1 := applyMessage_tick_steps r1 x y p hp1 hx1
    have hdrop := drop_eq_cons_of_get? q n (Message.Tick x y) hget
    have hgete : q[n]? = some (Message.Tick x y) := by
      rw [← List.get?_eq_getElem?]
      exact hget
    have htake : q.take (n + 1) = q.take n ++ [Message.Tick x y] := by
      rw [List.take_succ, hgete]
      rfl
    have hcvn2 : (rn.steps.set x (some p)).all cvOk = true :=
      all_set_of_all _ _ _ _ hcv (by unfold cvOk; exact decide_eq_true hcvp)
    have htpn : isTriggerKind rn.trigger_port = true := by
      rw [htp]
      exact hready.1
    have hppn : isAnalogOut rn.pitch_port = true := by
      rw [hpp2]
      exact hready.2.1
    have hLn : (rn.steps.set x (some p)).length ≠ 0 := by
      rw [List.length_set, hlen]
      exact hready.2.2.1
    obtain ⟨pf, trig, pout, hrender⟩ := render_step rn (Message.Tick x y)
      (q.drop (n + 1)) (beats n) ctx { rn with steps := rn.steps.set x (some p) }
      happn htpn hppn hLn hcvn2
    refine ⟨{ rn with steps := rn.steps.set x (some p), prev_pitch := pf },
      { r1 with steps := r1.steps.set x (some p) }, ?_, ?_, ?_, hscale, hscale1,
      ?_, htp, hpp2, hcvn2⟩
    · rw [htake, applyAll_append, hA, some_bind]
      show (applyMessage r1 (Message.Tick x y)).bind (fun r2 => applyAll r2 []) =
        some { r1 with steps := r1.steps.set x (some p) }
      rw [happ1, some_bind]
      rfl
    · show (match renderCalls r q beats ctx n with
        | none => none
        | some rq =>
          match rq.1.render rq.2 (beats n) ctx with
          | none => none
          | some out => some (out.1, out.2.1)) = _
      rw [hR]
      dsimp only
      rw [hdrop, hrender]
    · show rn.steps.set x (some p) = r1.steps.set x (some p)
      rw [hsteps]
    · show (rn.steps.set x (some p)).length = r.steps.length
      rw [List.length_set]
      exact hlen

/-- C9: N Tick messages queued before any render call are drained exactly
one per render call and applied in FIFO order: for every n ≤ N, after n
render calls the remaining queue is the original minus exactly its first
n messages, and the step buffer equals the pure left-to-right fold of
exactly those n messages — no message is lost, reordered, or applied
twice, and no render call drains more than one. -/
theorem C9_fifo_one_message_per_render (r : MMMSRenderer) (q : List Message)
    (beats : Nat → ℚ) (ctx : Context) (n : Nat)
    (hready : RenderReady r)
    (hq : q.all (goodTick r.steps.length r.scale) = true)
    (hn : n ≤ q.length) :
    (applyAll r (q.take n)).isSome = true ∧
    (renderCalls r q beats ctx n).map (fun x => (x.1.steps, x.2)) =
      (applyAll r (q.take n)).map (fun x1 => (x1.steps, q.drop n)) := by
  obtain ⟨rn, r1, hA, hR, hsteps, _, _, _, _, _, _⟩ :=
    renderCalls_spec beats ctx r q hready hq n hn
  rw [hA, hR]
  refine ⟨rfl, ?_⟩
  rw [some_map, some_map, hsteps]

/-- C9 witness: two Tick messages queued on the fresh renderer, two
render calls at beat 0 with a zero-frame context. -/
theorem C9_fifo_one_message_per_render_witness :
    (applyAll cRendererEmpty
        ([Message.Tick 0 3, Message.Tick 1 4].take 2)).isSome = true ∧
    (renderCalls cRendererEmpty [Message.Tick 0 3, Message.Tick 1 4]
        (fun _ => 0) cContext 2).map (fun x => (x.1.steps, x.2)) =
      (applyAll cRendererEmpty
          ([Message.Tick 0 3, Message.Tick 1 4].take 2)).map
        (fun x1 => (x1.steps, [Message.Tick 0 3, Message.Tick 1 4].drop 2)) :=
  C9_fifo_one_message_per_render cRendererEmpty
    [Message.Tick 0 3, Message.Tick 1 4] (fun _ => 0) cContext 2
    ⟨rfl, rfl, by decide, rfl⟩ (by decide) (by decide)

/-- C1: for every in-bounds musical-row cell, `down(x,y)` then `up(x,y)`
is claimed to return `Tick(x, y-1)`.  The code instead returns `Nothing`:
`up` overwrites the cell's intent with `Nothing` on its first line and
only then reads it back, so the `Tick` intent recorded by `down` is never
observed.  Evaluated at the failing input `(x,y) = (0,1)` on a fresh 16×8
tracker, where the claim demands `Tick(0,0)`. -/
theorem C1_down_up_yields_nothing :
    (((GridStateTracker.new 16 8).down 0 1).up 0 1).2 = MMMSAction.Nothing ∧
    MMMSAction.Nothing ≠ MMMSAction.Tick 0 0 := by
  constructor
  · rfl
  · decide

end Mmms
